import Mathlib

/-!
Verification of the crawl4ai-proxy request/response translation layer
(`main.go`) against its natural-language specification.

The Go code is shallowly embedded: parsed JSON values (Go `any` after
`encoding/json` unmarshalling) become the inductive `Json`; Go
`map[string]any` values become association lists of `String × Json`
accessed through `lookupField` (one binding per key, as a Go map
guarantees); `nil` slices versus non-nil slices are told apart with
`Option`; the network is an oracle mapping each request payload to a
`TransportOutcome`.  Go numbers (`float64`) are carried as an opaque
`Int` payload: no code path inspects numeric values, only the shape tag.
-/

namespace CrawlProxy

/-- A parsed JSON value, the shape a Go `any` takes after
`json.Unmarshal`: `nil`, `bool`, number, `string`, `[]any` or
`map[string]any`. -/
inductive Json where
  | null
  | bool (b : Bool)
  | num (n : Int)
  | str (s : String)
  | arr (elems : List Json)
  | obj (fields : List (String × Json))

/-- Go map indexing `m[k]`: the value bound to `k`, or `none` when the
key is absent (Go returns the zero value `nil`, which no type assertion
matches). -/
def lookupField : List (String × Json) → String → Option Json
  | [], _ => none
  | (k, v) :: rest, key => if k = key then some v else lookupField rest key

/-- One upstream result record: a Go `map[string]any`. -/
abbrev ResultRecord := List (String × Json)

/-- The type assertion `item.(map[string]any)`. -/
def asRecord : Json → Option ResultRecord
  | .obj fields => some fields
  | _ => none

/-- The inner `convertList` closure of `decodeResults` in `main.go`:
fails (second component `false`, here `none`) unless the value is a
`[]any`; otherwise keeps exactly the elements that are
`map[string]any`. The input is an `Option` because Go passes
`data["results"]`, which is `nil` when the key is absent. -/
def convertList : Option Json → Option (List ResultRecord)
  | some (.arr items) => some (items.filterMap asRecord)
  | _ => none

/-- Function `decodeResults` from `main.go`.  `none` models the Go `nil` slice
(the "malformed" signal); `some []` models the non-nil empty slice,
which is a valid zero-item outcome. -/
def decodeResults : Json → Option (List ResultRecord)
  | .arr items => some (items.filterMap asRecord)
  | .obj fields =>
      match convertList (lookupField fields "results") with
      | some results => some results
      | none =>
          match convertList (lookupField fields "data") with
          | some results => some results
          | none => some [fields]
  | _ => none

/-- Function `stringMapFromAny` from `main.go`: from a `map[string]any` keep
exactly the bindings whose value is a non-empty string.  The input is
an `Option` because the caller passes `result["metadata"]`. -/
def stringMapFromAny : Option Json → List (String × String)
  | some (.obj fields) =>
      fields.filterMap fun kv =>
        match kv.2 with
        | .str s => if s ≠ "" then some (kv.1, s) else none
        | _ => none
  | _ => []

/-- The ordered key list of `extractMarkdown`'s first loop. -/
def topLevelMarkdownKeys : List String :=
  ["filtered_markdown", "fit_markdown", "markdown", "raw_markdown", "content", "page_content"]

/-- The ordered key list of `extractMarkdown`'s nested loop. -/
def nestedMarkdownKeys : List String :=
  ["filtered_markdown", "fit_markdown", "markdown", "raw_markdown"]

/-- The loop body shared by both loops in `extractMarkdown`: walk the
keys in order and return the first value that exists, is a string, and
is non-empty. -/
def firstNonEmptyString (record : List (String × Json)) : List String → Option String
  | [] => none
  | key :: rest =>
      match lookupField record key with
      | some (.str s) => if s ≠ "" then some s else firstNonEmptyString record rest
      | _ => firstNonEmptyString record rest

/-- Function `extractMarkdown` from `main.go`. -/
def extractMarkdown (result : ResultRecord) : String :=
  match firstNonEmptyString result topLevelMarkdownKeys with
  | some s => s
  | none =>
      match lookupField result "markdown" with
      | some (.obj markdownMap) => (firstNonEmptyString markdownMap nestedMarkdownKeys).getD ""
      | _ => ""

/-- The client-facing `Request` struct of `main.go`.  `urls` carries the
Go slice including its nil-ness (`none` = nil slice): `json.Marshal`
writes a nil slice as `null` and the field has no `omitempty` tag, while
`url` has `omitempty` and is dropped when empty. -/
structure Request where
  urls : Option (List String)
  url : String

/-- Serialization `json.Marshal` of a `Request`, field order as declared: `urls`
always present (`null` for a nil slice), `url` only when non-empty. -/
def serializeRequest (r : Request) : Json :=
  .obj ([("urls", match r.urls with
                  | none => Json.null
                  | some us => Json.arr (us.map Json.str))] ++
        (if r.url ≠ "" then [("url", Json.str r.url)] else []))

/-- Function `normalizeRequestUrls` from `main.go`: keep the non-empty entries
of `Urls` in order (ranging over a nil slice yields nothing), then
append `Url` when non-empty. -/
def normalizeRequestUrls (requestData : Request) : List String :=
  (requestData.urls.getD []).filter (fun u => u ≠ "") ++
    (if requestData.url ≠ "" then [requestData.url] else [])

/-- Function `crawlRequestPayloadCandidates` from `main.go`: for a one-element
list, the single-URL encoding then the URL-list encoding; otherwise
just the URL-list encoding.  Payloads are modelled as the `Json` value
`json.Marshal` serializes. -/
def crawlRequestPayloadCandidates : List String → List Json
  | [u] => [serializeRequest ⟨none, u⟩, serializeRequest ⟨some [u], ""⟩]
  | urls => [serializeRequest ⟨some urls, ""⟩]

/-- Whether Go's `unicode.IsSpace` holds: the full Unicode White_Space
set — tab through carriage return, space, next line, no-break space,
Ogham space mark, the general-punctuation spaces U+2000–U+200A, line
and paragraph separators, narrow no-break space, medium mathematical
space, and ideographic space. -/
def goIsSpace (c : Char) : Bool :=
  c.val = 9 || c.val = 10 || c.val = 11 || c.val = 12 || c.val = 13 || c.val = 32 ||
    c.val = 0x85 || c.val = 0xA0 || c.val = 0x1680 ||
    (0x2000 ≤ c.val && c.val ≤ 0x200A) ||
    c.val = 0x2028 || c.val = 0x2029 || c.val = 0x202F || c.val = 0x205F || c.val = 0x3000

/-- Go's `strings.TrimSpace`: drop leading and trailing whitespace
runes.  The body is carried as its rune sequence (a valid-UTF-8 Go
string); `TrimSpace` always removes whole runes, so trimming runes and
trimming the encoded bytes agree. -/
def trimSpace (s : String) : String :=
  .mk (((s.data.dropWhile goIsSpace).reverse.dropWhile goIsSpace).reverse)

/-- Character-level stand-in for `previewResponseBody`, used only
inside the call pipeline, which applies it uniformly and never
inspects the preview's content.  The byte-faithful model of `main.go`
lines 195-202 — where `len(text)` and `text[:300]` count and slice
bytes — is `previewResponseBodyBytes` below. -/
def previewResponseBody (body : String) : String :=
  let text := trimSpace body
  if text.length > 300 then .mk (text.data.take 300) ++ "..." else text

/-- UTF-8 encoding of one code point (RFC 3629), via division instead
of bit shifts. -/
def utf8Bytes (c : Char) : List Nat :=
  if c.toNat < 0x80 then [c.toNat]
  else if c.toNat < 0x800 then
    [0xC0 + c.toNat / 0x40, 0x80 + c.toNat % 0x40]
  else if c.toNat < 0x10000 then
    [0xE0 + c.toNat / 0x1000, 0x80 + (c.toNat / 0x40) % 0x40, 0x80 + c.toNat % 0x40]
  else
    [0xF0 + c.toNat / 0x40000, 0x80 + (c.toNat / 0x1000) % 0x40,
      0x80 + (c.toNat / 0x40) % 0x40, 0x80 + c.toNat % 0x40]

/-- UTF-8 encoding of a rune sequence: the byte string Go holds. -/
def utf8Encode : List Char → List Nat
  | [] => []
  | c :: rest => utf8Bytes c ++ utf8Encode rest

/-- Function `previewResponseBody` from `main.go` at the byte level Go
operates on: trim the body (the Go local `text`, inlined here), and
when more than 300 bytes remain keep the first 300 bytes — possibly
splitting a multi-byte rune, exactly as `text[:300]` does — and append
the three ellipsis bytes. -/
def previewResponseBodyBytes (body : String) : List Nat :=
  if (utf8Encode (trimSpace body).data).length > 300 then
    (utf8Encode (trimSpace body).data).take 300 ++ utf8Encode "...".data
  else
    utf8Encode (trimSpace body).data

/-- What the transport layer does with one POSTed payload: either the
round trip fails (`http.DefaultClient.Do` or reading the body errors),
or a response arrives with a status code, a raw body, and — since
`json.Unmarshal` is deterministic on it — that body's parse outcome
(`none` when the body is not valid JSON).  `Json.null` as a parse
models the body `null`. -/
inductive TransportOutcome where
  | transportError (msg : String)
  | response (status : Nat) (rawBody : String) (parsed : Option Json)

/-- Struct `CrawlAPICallResult` from `main.go`; defaults are the Go zero
values. -/
structure CrawlAPICallResult where
  data : Option Json := none
  statusCode : Nat := 0
  bodyPreview : String := ""
  err : Option String := none

/-- Function `callCrawlAPI` from `main.go`, as a function of the transport
outcome for its payload: transport error ⇒ only `Err`; non-200 ⇒
status and body preview; 200 with unparsable body ⇒ status and the
fixed invalid-JSON error; 200 with parsed JSON ⇒ status and data. -/
def callCrawlAPI : TransportOutcome → CrawlAPICallResult
  | .transportError msg => { err := some msg }
  | .response status rawBody parsed =>
      if status ≠ 200 then
        { statusCode := status, bodyPreview := previewResponseBody rawBody }
      else
        match parsed with
        | none => { statusCode := status, err := some "invalid json received from crawl api" }
        | some j => { statusCode := status, data := some j }

/-- The success test of the fallback loop: `result.Err == nil &&
result.StatusCode == 200`. -/
def callSucceeded (result : CrawlAPICallResult) : Bool :=
  result.err.isNone && result.statusCode == 200

/-- The loop of `callCrawlAPIWithFallback`, with the running
`lastResult` made explicit. -/
def fallbackLoop (oracle : Json → TransportOutcome) (lastResult : CrawlAPICallResult) :
    List Json → CrawlAPICallResult
  | [] => lastResult
  | payload :: rest =>
      let result := callCrawlAPI (oracle payload)
      if callSucceeded result then result else fallbackLoop oracle result rest

/-- Function `callCrawlAPIWithFallback` from `main.go`: try the candidates in
order against the network `oracle`; return the first success, else the
last failure (the initial `lastResult` is the Go zero value). -/
def callCrawlAPIWithFallback (oracle : Json → TransportOutcome) (urls : List String) :
    CrawlAPICallResult :=
  fallbackLoop oracle {} (crawlRequestPayloadCandidates urls)

/-- Struct `SuccessResponseItem` from `main.go`.  The metadata map is carried
as an association list with one binding per key. -/
structure SuccessResponseItem where
  pageContent : String
  metadata : List (String × String)

/-- Serialization `json.Marshal` of a `SuccessResponseItem`: the struct tags name the
fields `page_content` and `metadata`.  (Go sorts map keys when
marshalling; the binding order of the association list stands in for
that order, which no claim inspects.) -/
def serializeSuccessResponseItem (item : SuccessResponseItem) : Json :=
  .obj [("page_content", .str item.pageContent),
        ("metadata", .obj (item.metadata.map fun kv => (kv.1, Json.str kv.2)))]

/-- Serialization `json.Marshal` of an `ErrorResponse`: both fields lack `omitempty`,
so both keys are always present. -/
def errorResponseJson (name detail : String) : Json :=
  .obj [("error", .str name), ("detail", .str detail)]

/-- Go map assignment `m[k] = v`: overwrite the binding when the key is
present, else add it. -/
def mapInsert (m : List (String × String)) (key value : String) : List (String × String) :=
  if m.any (fun kv => kv.1 = key) then
    m.map (fun kv => if kv.1 = key then (key, value) else kv)
  else
    m ++ [(key, value)]

/-- The per-result metadata assembly in `CrawlEndpoint`'s success loop:
`stringMapFromAny(result["metadata"])`, then `metadata["source"] = url`
when the record's `url` field is a non-empty string. -/
def buildMetadata (result : ResultRecord) : List (String × String) :=
  match lookupField result "url" with
  | some (.str url) =>
      if url ≠ "" then
        mapInsert (stringMapFromAny (lookupField result "metadata")) "source" url
      else
        stringMapFromAny (lookupField result "metadata")
  | _ => stringMapFromAny (lookupField result "metadata")

/-- Go's `strings.HasPrefix(s, pre)`. -/
def stringBeginsWith (s pre : String) : Bool :=
  pre.data.isPrefixOf s.data

/-- An HTTP response as `CrawlEndpoint` writes it: one status code and
one JSON body. -/
structure HttpResult where
  status : Nat
  body : Json

/-- Handler `CrawlEndpoint` from `main.go` as a function of the request method,
its `Content-Type` header, the outcome of JSON-decoding its body into a
`Request` (`Except` carries the decode error's message), and the
network oracle.  The Go locals `requestUrls` and `crawlAPICallResult`
are inlined; both right-hand sides are pure, so the value is
unchanged. -/
def CrawlEndpoint (method contentType : String) (decodedBody : Except String Request)
    (oracle : Json → TransportOutcome) : HttpResult :=
  if method ≠ "POST" then
    ⟨405, errorResponseJson "method not allowed" ""⟩
  else if ¬ stringBeginsWith contentType "application/json" then
    ⟨400, errorResponseJson "content type must be application/json" ""⟩
  else
    match decodedBody with
    | .error msg => ⟨400, errorResponseJson "invalid json" msg⟩
    | .ok requestData =>
        if (normalizeRequestUrls requestData).isEmpty then
          ⟨400, errorResponseJson "invalid json" "request must include `url` or `urls`"⟩
        else
          match (callCrawlAPIWithFallback oracle (normalizeRequestUrls requestData)).err with
          | some msg => ⟨502, errorResponseJson "bad gateway" msg⟩
          | none =>
              if (callCrawlAPIWithFallback oracle (normalizeRequestUrls requestData)).statusCode
                  ≠ 200 then
                ⟨502, errorResponseJson "bad gateway"
                  ("crawl api returned status " ++
                    toString (callCrawlAPIWithFallback oracle
                      (normalizeRequestUrls requestData)).statusCode ++
                    (if (callCrawlAPIWithFallback oracle
                          (normalizeRequestUrls requestData)).bodyPreview ≠ "" then
                      ": " ++ (callCrawlAPIWithFallback oracle
                        (normalizeRequestUrls requestData)).bodyPreview
                     else ""))⟩
              else
                match decodeResults ((callCrawlAPIWithFallback oracle
                    (normalizeRequestUrls requestData)).data.getD .null) with
                | none =>
                    ⟨502, errorResponseJson "bad gateway"
                      "invalid json structure received from crawl api"⟩
                | some crawlResults =>
                    ⟨200, .arr (crawlResults.map fun result =>
                      serializeSuccessResponseItem
                        ⟨extractMarkdown result, buildMetadata result⟩)⟩

/-- Key lookup on a `Json` value when it is an object; `none` on every
other shape.  Used to state which keys a serialized payload carries. -/
def jsonObjLookup : Json → String → Option Json
  | .obj fields, key => lookupField fields key
  | _, _ => none

/-- Go map indexing on a `map[string]string`. -/
def lookupString : List (String × String) → String → Option String
  | [], _ => none
  | (k, v) :: rest, key => if k = key then some v else lookupString rest key

/-- Whether `record[key]` exists, is a string, and is non-empty — the
condition on which either loop of `extractMarkdown` stops. -/
def isNonEmptyStringAt (record : List (String × Json)) (key : String) : Bool :=
  match lookupField record key with
  | some (.str s) => if s = "" then false else true
  | _ => false

/-- A network on which every round trip fails at the transport layer. -/
def alwaysFailOracle : Json → TransportOutcome :=
  fun _ => .transportError "connection refused"

/-- A network whose sole answer is a 200 response carrying one result
record whose content lives under the `content` key. -/
def contentOracle : Json → TransportOutcome :=
  fun _ => .response 200 "" (some (.obj [("results", .arr [.obj [("content", .str "c")]])]))

/-- A 301-character ASCII body: 301 bytes, one over the preview
limit. -/
def longBody : String := .mk (List.replicate 301 'a')

/-- A body of 151 section signs U+00A7: two bytes per character, so
302 bytes but only 151 characters. -/
def wideBody : String := .mk (List.replicate 151 '§')

/-- The preview exactly as the specification sentence words it: the
body trimmed of surrounding whitespace and truncated to 300 characters
— with no ellipsis and a character count.  Stated for comparison
against `previewResponseBodyBytes`, the byte-level function the source
defines. -/
def previewAsClaimed (body : String) : String :=
  .mk ((trimSpace body).data.take 300)

/-- Stepping past one key on which the shared loop finds nothing. -/
theorem firstNonEmptyString_cons_fail (record : List (String × Json)) (key : String)
    (rest : List String) (h : isNonEmptyStringAt record key = false) :
    firstNonEmptyString record (key :: rest) = firstNonEmptyString record rest := by
  unfold isNonEmptyStringAt at h
  cases hl : lookupField record key with
  | none => simp only [firstNonEmptyString, hl]
  | some v =>
    rw [hl] at h
    cases v with
    | str s =>
      simp only [firstNonEmptyString, hl]
      by_cases hs : s = "" <;> simp [hs] at h ⊢
    | null => simp only [firstNonEmptyString, hl]
    | bool b => simp only [firstNonEmptyString, hl]
    | num n => simp only [firstNonEmptyString, hl]
    | arr es => simp only [firstNonEmptyString, hl]
    | obj fs => simp only [firstNonEmptyString, hl]

/-- The shared loop returns the value at `key` when every earlier key
finds nothing and `key` holds a non-empty string. -/
theorem firstNonEmptyString_append_hit (record : List (String × Json)) :
    ∀ (pre : List String) (key : String) (post : List String) (s : String),
      (∀ k ∈ pre, isNonEmptyStringAt record k = false) →
      lookupField record key = some (.str s) → s ≠ "" →
      firstNonEmptyString record (pre ++ key :: post) = some s
  | [], key, post, s, _, hl, hs => by
      simp only [List.nil_append]
      unfold firstNonEmptyString
      rw [hl]
      simp [hs]
  | k0 :: pre, key, post, s, hpre, hl, hs => by
      rw [List.cons_append, firstNonEmptyString_cons_fail record k0 _ (hpre k0 (by simp))]
      exact firstNonEmptyString_append_hit record pre key post s
        (fun k hk => hpre k (by simp [hk])) hl hs

/-- The shared loop finds nothing when no key holds a non-empty string. -/
theorem firstNonEmptyString_eq_none (record : List (String × Json)) :
    ∀ keys : List String, (∀ k ∈ keys, isNonEmptyStringAt record k = false) →
      firstNonEmptyString record keys = none
  | [], _ => rfl
  | k0 :: keys, h => by
      rw [firstNonEmptyString_cons_fail record k0 keys (h k0 (by simp))]
      exact firstNonEmptyString_eq_none record keys (fun k hk => h k (by simp [hk]))

/-- C4: content extraction checks the top-level keys
filtered_markdown, fit_markdown, markdown, raw_markdown, content,
page_content in strict priority order and returns the first non-empty
string; when none matches and the `markdown` field is a nested object
it checks filtered_markdown, fit_markdown, markdown, raw_markdown
inside it in order; when nothing matches anywhere it returns the empty
string (never an error); and on
`{"markdown": {"raw_markdown": "raw", "fit_markdown": "fit"}}` it
returns `"fit"`, on `{"content": "c"}` it returns `"c"`. -/
theorem extractMarkdown_priority_spec :
    (∀ (record : ResultRecord) (pre : List String) (key : String) (post : List String)
        (s : String),
        topLevelMarkdownKeys = pre ++ key :: post →
        (∀ k ∈ pre, isNonEmptyStringAt record k = false) →
        lookupField record key = some (.str s) → s ≠ "" →
        extractMarkdown record = s) ∧
    (∀ (record : ResultRecord) (markdownMap : List (String × Json))
        (pre : List String) (key : String) (post : List String) (s : String),
        (∀ k ∈ topLevelMarkdownKeys, isNonEmptyStringAt record k = false) →
        lookupField record "markdown" = some (.obj markdownMap) →
        nestedMarkdownKeys = pre ++ key :: post →
        (∀ k ∈ pre, isNonEmptyStringAt markdownMap k = false) →
        lookupField markdownMap key = some (.str s) → s ≠ "" →
        extractMarkdown record = s) ∧
    (∀ record : ResultRecord,
        (∀ k ∈ topLevelMarkdownKeys, isNonEmptyStringAt record k = false) →
        (∀ markdownMap : List (String × Json),
            lookupField record "markdown" = some (.obj markdownMap) →
            ∀ k ∈ nestedMarkdownKeys, isNonEmptyStringAt markdownMap k = false) →
        extractMarkdown record = "") ∧
    extractMarkdown
        [("markdown", .obj [("raw_markdown", .str "raw"), ("fit_markdown", .str "fit")])]
      = "fit" ∧
    extractMarkdown [("content", .str "c")] = "c" := by
  refine ⟨?_, ?_, ?_, rfl, rfl⟩
  · intro record pre key post s hsplit hpre hl hs
    unfold extractMarkdown
    rw [hsplit, firstNonEmptyString_append_hit record pre key post s hpre hl hs]
  · intro record markdownMap pre key post s htop hm hsplit hpre hl hs
    unfold extractMarkdown
    rw [firstNonEmptyString_eq_none record _ htop, hm, hsplit]
    show (firstNonEmptyString markdownMap (pre ++ key :: post)).getD "" = s
    rw [firstNonEmptyString_append_hit markdownMap pre key post s hpre hl hs]
    rfl
  · intro record htop hnested
    unfold extractMarkdown
    rw [firstNonEmptyString_eq_none record _ htop]
    cases hm : lookupField record "markdown" with
    | none => rfl
    | some v =>
      cases v with
      | obj m =>
        show (firstNonEmptyString m nestedMarkdownKeys).getD "" = ""
        rw [firstNonEmptyString_eq_none m _ (hnested m hm)]
        rfl
      | null => rfl
      | bool b => rfl
      | num n => rfl
      | str s => rfl
      | arr es => rfl

/-- Witness for C4: `fit_markdown` wins once `filtered_markdown` is
absent, by the first conjunct at a concrete record. -/
theorem extractMarkdown_priority_spec_witness :
    extractMarkdown [("fit_markdown", Json.str "fitted")] = "fitted" :=
  extractMarkdown_priority_spec.1 [("fit_markdown", Json.str "fitted")]
    ["filtered_markdown"] "fit_markdown" ["markdown", "raw_markdown", "content", "page_content"]
    "fitted" rfl (by decide) rfl (by decide)

/-- C1 (refuted by the code, asserted by the repository's own test):
for the one-element list `["only"]` the two generated candidates are
exactly `{"urls": null, "url": "only"}` and `{"urls": ["only"]}` —
neither serialized body carries a `browserConfig` or
`crawlerRunConfig` member, so no candidate carries the default crawl
options (text_mode, remove_overlay_elements, magic,
exclude_all_images) that `TestCrawlRequestPayloadCandidates`
requires of every candidate. -/
theorem candidates_for_only_carry_no_options :
    crawlRequestPayloadCandidates ["only"] =
      [Json.obj [("urls", Json.null), ("url", Json.str "only")],
       Json.obj [("urls", Json.arr [Json.str "only"])]] ∧
    ((crawlRequestPayloadCandidates ["only"]).all fun c =>
        (jsonObjLookup c "browserConfig").isNone && (jsonObjLookup c "crawlerRunConfig").isNone)
      = true :=
  ⟨rfl, rfl⟩

/-- C7: a one-element normalized URL list yields exactly two
candidates, the single-URL-field encoding then the one-element
URL-list-field encoding; a longer list yields exactly one URL-list
candidate. -/
theorem crawlRequestPayloadCandidates_spec :
    (∀ u : String, u ≠ "" →
        crawlRequestPayloadCandidates [u] =
          [Json.obj [("urls", Json.null), ("url", Json.str u)],
           Json.obj [("urls", Json.arr [Json.str u])]]) ∧
    (∀ urls : List String, 1 < urls.length →
        crawlRequestPayloadCandidates urls =
          [Json.obj [("urls", Json.arr (urls.map Json.str))]]) := by
  constructor
  · intro u hu
    simp [crawlRequestPayloadCandidates, serializeRequest, hu]
  · intro urls h
    match urls with
    | [] => simp at h
    | [u] => simp at h
    | u1 :: u2 :: rest =>
      simp [crawlRequestPayloadCandidates, serializeRequest]

/-- Witness for C7 at `["a"]` and `["a", "b"]`. -/
theorem crawlRequestPayloadCandidates_spec_witness :
    crawlRequestPayloadCandidates ["a"] =
      [Json.obj [("urls", Json.null), ("url", Json.str "a")],
       Json.obj [("urls", Json.arr [Json.str "a"])]] ∧
    crawlRequestPayloadCandidates ["a", "b"] =
      [Json.obj [("urls", Json.arr [Json.str "a", Json.str "b"])]] :=
  ⟨crawlRequestPayloadCandidates_spec.1 "a" (by decide),
   crawlRequestPayloadCandidates_spec.2 ["a", "b"] (by decide)⟩

/-- The fallback loop returns the first successful candidate's result,
whatever the running last result is. -/
theorem fallbackLoop_find (oracle : Json → TransportOutcome) :
    ∀ (cs : List Json) (lastResult : CrawlAPICallResult) (c : Json),
      cs.find? (fun p => callSucceeded (callCrawlAPI (oracle p))) = some c →
      fallbackLoop oracle lastResult cs = callCrawlAPI (oracle c)
  | [], _, c, h => by simp at h
  | p :: rest, lastResult, c, h => by
      cases hp : callSucceeded (callCrawlAPI (oracle p)) with
      | true =>
        rw [List.find?_cons_of_pos _ (by simp [hp])] at h
        cases h
        show (if callSucceeded (callCrawlAPI (oracle p)) then callCrawlAPI (oracle p)
              else fallbackLoop oracle (callCrawlAPI (oracle p)) rest) = callCrawlAPI (oracle p)
        rw [hp]
        simp
      | false =>
        rw [List.find?_cons_of_neg _ (by simp [hp])] at h
        show (if callSucceeded (callCrawlAPI (oracle p)) then callCrawlAPI (oracle p)
              else fallbackLoop oracle (callCrawlAPI (oracle p)) rest) = callCrawlAPI (oracle c)
        rw [hp]
        simpa using fallbackLoop_find oracle rest (callCrawlAPI (oracle p)) c h

/-- When every candidate fails, the loop returns the last candidate's
result. -/
theorem fallbackLoop_allFail (oracle : Json → TransportOutcome) :
    ∀ (cs : List Json) (lastResult : CrawlAPICallResult) (c : Json),
      (∀ p ∈ cs, callSucceeded (callCrawlAPI (oracle p)) = false) →
      cs.getLast? = some c →
      fallbackLoop oracle lastResult cs = callCrawlAPI (oracle c)
  | [], _, c, _, h => by simp at h
  | [p], lastResult, c, hfail, h => by
      simp only [List.getLast?_singleton, Option.some.injEq] at h
      subst h
      show (if callSucceeded (callCrawlAPI (oracle p)) then callCrawlAPI (oracle p)
            else fallbackLoop oracle (callCrawlAPI (oracle p)) []) = callCrawlAPI (oracle p)
      rw [hfail p (by simp)]
      simp [fallbackLoop]
  | p :: q :: rest, lastResult, c, hfail, h => by
      rw [List.getLast?_cons_cons] at h
      show (if callSucceeded (callCrawlAPI (oracle p)) then callCrawlAPI (oracle p)
            else fallbackLoop oracle (callCrawlAPI (oracle p)) (q :: rest)) =
        callCrawlAPI (oracle c)
      rw [hfail p (by simp)]
      simpa using fallbackLoop_allFail oracle (q :: rest) (callCrawlAPI (oracle p)) c
        (fun r hr => hfail r (by simp at hr ⊢; tauto)) h

/-- C2: a candidate succeeds exactly when the transport call completes
with status 200 and a body that parses as JSON; the caller returns the
first successful candidate's result (later candidates never influence
the outcome); and when every candidate fails it returns the failure of
the last attempted candidate. -/
theorem callCrawlAPIWithFallback_spec (oracle : Json → TransportOutcome) (urls : List String) :
    (∀ o : TransportOutcome,
        callSucceeded (callCrawlAPI o) = true ↔
          ∃ (rawBody : String) (j : Json), o = .response 200 rawBody (some j)) ∧
    (∀ c : Json,
        (crawlRequestPayloadCandidates urls).find?
            (fun p => callSucceeded (callCrawlAPI (oracle p))) = some c →
        callCrawlAPIWithFallback oracle urls = callCrawlAPI (oracle c)) ∧
    (∀ c : Json,
        (∀ p ∈ crawlRequestPayloadCandidates urls,
            callSucceeded (callCrawlAPI (oracle p)) = false) →
        (crawlRequestPayloadCandidates urls).getLast? = some c →
        callCrawlAPIWithFallback oracle urls = callCrawlAPI (oracle c)) := by
  refine ⟨?_, ?_, ?_⟩
  · intro o
    cases o with
    | transportError msg => simp [callCrawlAPI, callSucceeded]
    | response status rawBody parsed =>
      by_cases hs : status = 200
      · subst hs
        cases parsed with
        | none => simp [callCrawlAPI, callSucceeded]
        | some j =>
          constructor
          · intro _
            exact ⟨rawBody, j, rfl⟩
          · intro _
            rfl
      · cases parsed <;> simp [callCrawlAPI, callSucceeded, hs]
  · intro c h
    exact fallbackLoop_find oracle (crawlRequestPayloadCandidates urls) {} c h
  · intro c hfail h
    exact fallbackLoop_allFail oracle (crawlRequestPayloadCandidates urls) {} c hfail h

/-- Witness for C2: with a transport that always fails, the reported
failure for `["a"]` is that of the URL-list-shaped candidate, the last
one attempted. -/
theorem callCrawlAPIWithFallback_spec_witness :
    callCrawlAPIWithFallback alwaysFailOracle ["a"] =
      callCrawlAPI (alwaysFailOracle (Json.obj [("urls", Json.arr [Json.str "a"])])) :=
  (callCrawlAPIWithFallback_spec alwaysFailOracle ["a"]).2.2
    (Json.obj [("urls", Json.arr [Json.str "a"])]) (fun _ _ => rfl) rfl

/-- After the method, content-type and body-decode checks pass,
`CrawlEndpoint` is the validation-then-upstream pipeline; purely a
reduction of the definition at the passing checks. -/
theorem CrawlEndpoint_validated (r : Request) (oracle : Json → TransportOutcome) :
    CrawlEndpoint "POST" "application/json" (.ok r) oracle =
      (if (normalizeRequestUrls r).isEmpty then
        ⟨400, errorResponseJson "invalid json" "request must include `url` or `urls`"⟩
      else
        match (callCrawlAPIWithFallback oracle (normalizeRequestUrls r)).err with
        | some msg => ⟨502, errorResponseJson "bad gateway" msg⟩
        | none =>
            if (callCrawlAPIWithFallback oracle (normalizeRequestUrls r)).statusCode ≠ 200 then
              ⟨502, errorResponseJson "bad gateway"
                ("crawl api returned status " ++
                  toString (callCrawlAPIWithFallback oracle (normalizeRequestUrls r)).statusCode ++
                  (if (callCrawlAPIWithFallback oracle (normalizeRequestUrls r)).bodyPreview ≠ ""
                   then ": " ++
                     (callCrawlAPIWithFallback oracle (normalizeRequestUrls r)).bodyPreview
                   else ""))⟩
            else
              match decodeResults
                  ((callCrawlAPIWithFallback oracle (normalizeRequestUrls r)).data.getD .null) with
              | none =>
                  ⟨502, errorResponseJson "bad gateway"
                    "invalid json structure received from crawl api"⟩
              | some crawlResults =>
                  ⟨200, .arr (crawlResults.map fun result =>
                    serializeSuccessResponseItem
                      ⟨extractMarkdown result, buildMetadata result⟩)⟩) := rfl

/-- C5: normalization keeps the list-field entries with empties
dropped, in their original order, then appends the singular field when
non-empty; and whenever the normalized list is empty the endpoint
answers 400 with the validation error — for every network oracle, so
no network call influences the outcome. -/
theorem normalizeRequestUrls_spec :
    normalizeRequestUrls ⟨some ["a", "", "b"], "c"⟩ = ["a", "b", "c"] ∧
    (∀ (r : Request) (oracle : Json → TransportOutcome),
        normalizeRequestUrls r = [] →
        CrawlEndpoint "POST" "application/json" (.ok r) oracle =
          ⟨400, errorResponseJson "invalid json" "request must include `url` or `urls`"⟩) := by
  refine ⟨rfl, ?_⟩
  intro r oracle h
  rw [CrawlEndpoint_validated, h]
  rfl

/-- Witness for C5: a request whose list field holds only an empty
string normalizes to nothing and is rejected with the 400 validation
error. -/
theorem normalizeRequestUrls_spec_witness :
    CrawlEndpoint "POST" "application/json" (.ok ⟨some [""], ""⟩) alwaysFailOracle =
      ⟨400, errorResponseJson "invalid json" "request must include `url` or `urls`"⟩ :=
  normalizeRequestUrls_spec.2 ⟨some [""], ""⟩ alwaysFailOracle rfl

/-- The candidate generator never returns an empty list. -/
theorem candidates_ne_nil (urls : List String) : crawlRequestPayloadCandidates urls ≠ [] := by
  match urls with
  | [] => simp [crawlRequestPayloadCandidates]
  | [u] => simp [crawlRequestPayloadCandidates]
  | u1 :: u2 :: rest => simp [crawlRequestPayloadCandidates]

/-- Against a network that always answers 200 with the parsed value
`j`, the loop stops at the first candidate with that success. -/
theorem fallbackLoop_constSuccess (j : Json) (rawBody : String)
    (oracle : Json → TransportOutcome)
    (horacle : ∀ p, oracle p = .response 200 rawBody (some j)) :
    ∀ (cs : List Json) (lastResult : CrawlAPICallResult), cs ≠ [] →
      fallbackLoop oracle lastResult cs = { statusCode := 200, data := some j }
  | [], _, h => absurd rfl h
  | p :: rest, lastResult, _ => by
      show (if callSucceeded (callCrawlAPI (oracle p)) then callCrawlAPI (oracle p)
            else fallbackLoop oracle (callCrawlAPI (oracle p)) rest) =
        { statusCode := 200, data := some j }
      rw [horacle p]
      rfl

/-- The caller's result against an always-succeeding network. -/
theorem callCrawlAPIWithFallback_constSuccess (j : Json) (rawBody : String) (urls : List String) :
    callCrawlAPIWithFallback (fun _ => .response 200 rawBody (some j)) urls =
      { statusCode := 200, data := some j } :=
  fallbackLoop_constSuccess j rawBody _ (fun _ => rfl) (crawlRequestPayloadCandidates urls) {}
    (candidates_ne_nil urls)

/-- C3: decoding a top-level sequence keeps exactly its key-value
object elements (possibly none — a valid outcome); decoding an object
returns the filtered `results` sequence when that field is a sequence,
else the filtered `data` sequence when that one is, else the whole
object as a one-element list; every other parsed value (scalar or
null) yields the malformed signal, which differs from an empty list;
and on the endpoint exactly the malformed signal produces the
upstream-structure 502, while a decoded list — even empty — is
forwarded with status 200. -/
theorem decodeResults_spec :
    (∀ items : List Json, decodeResults (.arr items) = some (items.filterMap asRecord)) ∧
    (∀ (fields : List (String × Json)) (rs : List Json),
        lookupField fields "results" = some (.arr rs) →
        decodeResults (.obj fields) = some (rs.filterMap asRecord)) ∧
    (∀ (fields : List (String × Json)) (ds : List Json),
        convertList (lookupField fields "results") = none →
        lookupField fields "data" = some (.arr ds) →
        decodeResults (.obj fields) = some (ds.filterMap asRecord)) ∧
    (∀ fields : List (String × Json),
        convertList (lookupField fields "results") = none →
        convertList (lookupField fields "data") = none →
        decodeResults (.obj fields) = some [fields]) ∧
    (decodeResults .null = none ∧ (∀ b, decodeResults (.bool b) = none) ∧
      (∀ n, decodeResults (.num n) = none) ∧ (∀ s, decodeResults (.str s) = none)) ∧
    (∀ j : Json, decodeResults j = none → ∀ rs, decodeResults j ≠ some rs) ∧
    (∀ (r : Request) (j : Json), normalizeRequestUrls r ≠ [] →
        (CrawlEndpoint "POST" "application/json" (.ok r)
            (fun _ => .response 200 "" (some j)) =
          ⟨502, errorResponseJson "bad gateway" "invalid json structure received from crawl api"⟩
          ↔ decodeResults j = none)) ∧
    (∀ (r : Request) (j : Json) (rs : List ResultRecord), normalizeRequestUrls r ≠ [] →
        decodeResults j = some rs →
        (CrawlEndpoint "POST" "application/json" (.ok r)
            (fun _ => .response 200 "" (some j))).status = 200) := by
  refine ⟨fun items => rfl, ?_, ?_, ?_, ⟨rfl, fun b => rfl, fun n => rfl, fun s => rfl⟩,
    ?_, ?_, ?_⟩
  · intro fields rs h
    simp only [decodeResults]
    rw [h]
    rfl
  · intro fields ds h1 h2
    simp only [decodeResults]
    rw [h1, h2]
    rfl
  · intro fields h1 h2
    simp only [decodeResults]
    rw [h1, h2]
  · intro j h rs
    rw [h]
    simp
  · intro r j hr
    rw [CrawlEndpoint_validated]
    cases hn : normalizeRequestUrls r with
    | nil => exact absurd hn hr
    | cons a as =>
      rw [callCrawlAPIWithFallback_constSuccess j "" (a :: as)]
      show (match decodeResults j with
            | none => (⟨502, errorResponseJson "bad gateway"
                "invalid json structure received from crawl api"⟩ : HttpResult)
            | some crawlResults => ⟨200, .arr (crawlResults.map fun result =>
                serializeSuccessResponseItem
                  ⟨extractMarkdown result, buildMetadata result⟩)⟩) =
          ⟨502, errorResponseJson "bad gateway" "invalid json structure received from crawl api"⟩
          ↔ decodeResults j = none
      cases hd : decodeResults j with
      | none => simp
      | some rs => simp
  · intro r j rs hr hd
    rw [CrawlEndpoint_validated]
    cases hn : normalizeRequestUrls r with
    | nil => exact absurd hn hr
    | cons a as =>
      rw [callCrawlAPIWithFallback_constSuccess j "" (a :: as)]
      show (match decodeResults j with
            | none => (⟨502, errorResponseJson "bad gateway"
                "invalid json structure received from crawl api"⟩ : HttpResult)
            | some crawlResults => ⟨200, .arr (crawlResults.map fun result =>
                serializeSuccessResponseItem
                  ⟨extractMarkdown result, buildMetadata result⟩)⟩).status = 200
      rw [hd]

/-- Witness for C3: a `results`-bearing object decodes to its record
list, and a bare-string upstream body produces exactly the
upstream-structure 502. -/
theorem decodeResults_spec_witness :
    decodeResults (.obj [("results", Json.arr [Json.obj [("url", Json.str "x")]])]) =
      some [[("url", Json.str "x")]] ∧
    CrawlEndpoint "POST" "application/json" (.ok ⟨none, "u"⟩)
        (fun _ => .response 200 "" (some (Json.str "oops"))) =
      ⟨502, errorResponseJson "bad gateway" "invalid json structure received from crawl api"⟩ :=
  ⟨decodeResults_spec.2.1 [("results", Json.arr [Json.obj [("url", Json.str "x")]])]
      [Json.obj [("url", Json.str "x")]] rfl,
   (decodeResults_spec.2.2.2.2.2.2.1 ⟨none, "u"⟩ (Json.str "oops") (by decide)).mpr rfl⟩

/-- Whatever is not a JSON sequence fails the list conversion. -/
theorem convertList_eq_none (o : Option Json) (h : ∀ l, o ≠ some (.arr l)) :
    convertList o = none := by
  cases o with
  | none => rfl
  | some v =>
    cases v with
    | arr l => exact absurd rfl (h l)
    | null => rfl
    | bool b => rfl
    | num n => rfl
    | str s => rfl
    | obj fs => rfl

/-- C10: an object whose `results` field exists but is not a sequence
never yields the malformed signal; the decoder falls through to
`data`, and when `data` is also absent or not a sequence the whole
object comes back as a one-element result list. -/
theorem decodeResults_results_not_seq (fields : List (String × Json)) (j : Json)
    (hres : lookupField fields "results" = some j) (hnotseq : ∀ l, j ≠ Json.arr l) :
    decodeResults (Json.obj fields) ≠ none ∧
    ((∀ j', lookupField fields "data" = some j' → ∀ l, j' ≠ Json.arr l) →
      decodeResults (Json.obj fields) = some [fields]) := by
  have hconv : convertList (lookupField fields "results") = none := by
    rw [hres]
    exact convertList_eq_none _ (fun l hl => by cases hl; exact absurd rfl (hnotseq l))
  constructor
  · simp only [decodeResults]
    rw [hconv]
    cases hd : convertList (lookupField fields "data") with
    | none => simp
    | some rs => simp
  · intro hdata
    have hconvd : convertList (lookupField fields "data") = none := by
      cases hld : lookupField fields "data" with
      | none => rfl
      | some j' =>
        exact convertList_eq_none _ (fun l hl => by
          cases hl; exact absurd rfl (hdata _ hld l))
    simp only [decodeResults]
    rw [hconv, hconvd]

/-- Witness for C10: `results` bound to a bare string. -/
theorem decodeResults_results_not_seq_witness :
    decodeResults (Json.obj [("results", Json.str "x")]) ≠ none ∧
    decodeResults (Json.obj [("results", Json.str "x")]) = some [[("results", Json.str "x")]] := by
  have h := decodeResults_results_not_seq [("results", Json.str "x")] (Json.str "x") rfl
    (fun l hl => Json.noConfusion hl)
  exact ⟨h.1, h.2 (fun j' hj' l _ => Option.noConfusion hj')⟩

/-- Every endpoint answer either has a non-200 status or is the
serialized success list built from some decoded record list. -/
theorem CrawlEndpoint_status_cases (method contentType : String)
    (decodedBody : Except String Request) (oracle : Json → TransportOutcome) :
    (CrawlEndpoint method contentType decodedBody oracle).status ≠ 200 ∨
    ∃ records : List ResultRecord,
      CrawlEndpoint method contentType decodedBody oracle =
        ⟨200, .arr (records.map fun r =>
          serializeSuccessResponseItem ⟨extractMarkdown r, buildMetadata r⟩)⟩ := by
  unfold CrawlEndpoint
  split
  · left; intro hh; simp at hh
  · split
    · left; intro hh; simp at hh
    · split
      · left; intro hh; simp at hh
      · split
        · left; intro hh; simp at hh
        · split
          · left; intro hh; simp at hh
          · split
            · left; intro hh; simp at hh
            · split
              · left; intro hh; simp at hh
              · right; exact ⟨_, rfl⟩

/-- C6 counterexample: a successful end-to-end run whose upstream
record carries `content`; the 200 body's single item stores that
content under the key `page_content` and has no `content` key. -/
theorem successItem_content_key_counterexample :
    CrawlEndpoint "POST" "application/json" (.ok ⟨none, "u"⟩) contentOracle =
      ⟨200, .arr [.obj [("page_content", Json.str "c"), ("metadata", Json.obj [])]]⟩ ∧
    jsonObjLookup (Json.obj [("page_content", Json.str "c"), ("metadata", Json.obj [])]) "content"
      = none ∧
    jsonObjLookup (Json.obj [("page_content", Json.str "c"), ("metadata", Json.obj [])])
      "page_content" = some (Json.str "c") :=
  ⟨rfl, rfl, rfl⟩

/-- C6 (amended): every 200 response body is a sequence of objects,
each holding the extracted content string under the key `page_content`
(not `content`) and a string-to-string mapping under `metadata`. -/
theorem success_body_shape (method contentType : String)
    (decodedBody : Except String Request) (oracle : Json → TransportOutcome)
    (h : (CrawlEndpoint method contentType decodedBody oracle).status = 200) :
    ∃ records : List ResultRecord,
      (CrawlEndpoint method contentType decodedBody oracle).body =
        .arr (records.map fun r =>
          Json.obj [("page_content", Json.str (extractMarkdown r)),
                    ("metadata",
                      Json.obj ((buildMetadata r).map fun kv => (kv.1, Json.str kv.2)))]) := by
  rcases CrawlEndpoint_status_cases method contentType decodedBody oracle with hne | ⟨records, heq⟩
  · exact absurd h hne
  · exact ⟨records, by rw [heq]; rfl⟩

/-- Witness for C6's amended theorem on a concrete successful run. -/
theorem success_body_shape_witness :
    ∃ records : List ResultRecord,
      (CrawlEndpoint "POST" "application/json" (.ok ⟨none, "u"⟩) contentOracle).body =
        .arr (records.map fun r =>
          Json.obj [("page_content", Json.str (extractMarkdown r)),
                    ("metadata",
                      Json.obj ((buildMetadata r).map fun kv => (kv.1, Json.str kv.2)))]) :=
  success_body_shape "POST" "application/json" (.ok ⟨none, "u"⟩) contentOracle rfl

set_option maxRecDepth 8000 in
/-- C9 counterexample: for a 301-byte ASCII body the captured preview
is 303 bytes — the 300-byte truncation with an appended ellipsis, not
the claimed plain truncation; and for a body of 151 two-byte
characters (302 bytes) the preview is again the first 300 bytes plus
the ellipsis, splitting the 151st character, while the claimed
truncation to 300 characters would keep the whole 302-byte body:
the preview is neither an ellipsis-free nor a character-counted
truncation. -/
theorem previewResponseBody_truncation_counterexample :
    previewResponseBodyBytes longBody ≠ utf8Encode (previewAsClaimed longBody).data ∧
    (previewResponseBodyBytes longBody).length = 303 ∧
    (utf8Encode (previewAsClaimed longBody).data).length = 300 ∧
    previewResponseBodyBytes wideBody ≠ utf8Encode (previewAsClaimed wideBody).data ∧
    (previewResponseBodyBytes wideBody).length = 303 ∧
    (utf8Encode (previewAsClaimed wideBody).data).length = 302 :=
  ⟨by decide, by decide, by decide, by decide, by decide, by decide⟩

/-- C9 (amended): the captured body preview is the body trimmed of
surrounding whitespace and truncated to its first 300 bytes, with the
three ellipsis bytes `...` appended exactly when the trimmed body
exceeds 300 bytes; the count and the cut are in bytes, as Go's `len`
and slicing are, so the cut may split a multi-byte character. -/
theorem previewResponseBodyBytes_spec (body : String) :
    previewResponseBodyBytes body =
      (utf8Encode (trimSpace body).data).take 300 ++
        (if 300 < (utf8Encode (trimSpace body).data).length then utf8Encode "...".data
         else []) := by
  unfold previewResponseBodyBytes
  by_cases h : (utf8Encode (trimSpace body).data).length > 300
  · rw [if_pos h, if_pos h]
  · rw [if_neg h, if_neg h]
    rw [List.take_of_length_le (Nat.not_lt.mp h), List.append_nil]

/-- A binding survives the metadata filter exactly when it binds a
non-empty string in the source object. -/
theorem mem_stringMapFromAny (fields : List (String × Json)) (k v : String) :
    (k, v) ∈ stringMapFromAny (some (.obj fields)) ↔ (k, Json.str v) ∈ fields ∧ v ≠ "" := by
  simp only [stringMapFromAny, List.mem_filterMap]
  constructor
  · rintro ⟨⟨a, b⟩, hab, hf⟩
    cases b with
    | str s =>
      dsimp only at hf
      by_cases hs : s = ""
      · simp [hs] at hf
      · rw [if_pos hs] at hf
        cases hf
        exact ⟨hab, hs⟩
    | null => simp at hf
    | bool c => simp at hf
    | num n => simp at hf
    | arr es => simp at hf
    | obj fs => simp at hf
  · rintro ⟨hmem, hv⟩
    exact ⟨(k, Json.str v), hmem, by simp [hv]⟩

/-- Any binding of a map after an insert is either the inserted one or
an untouched binding under a different key. -/
theorem mem_mapInsert (m : List (String × String)) (key value k v : String)
    (h : (k, v) ∈ mapInsert m key value) :
    (k = key ∧ v = value) ∨ ((k, v) ∈ m ∧ k ≠ key) := by
  unfold mapInsert at h
  split at h
  · rcases List.mem_map.mp h with ⟨⟨a, b⟩, hab, hf⟩
    by_cases hk : a = key
    · rw [if_pos (by simpa using hk)] at hf
      cases hf
      exact Or.inl ⟨rfl, rfl⟩
    · rw [if_neg (by simpa using hk)] at hf
      cases hf
      exact Or.inr ⟨hab, hk⟩
  · rcases List.mem_append.mp h with hm | hkv
    · refine Or.inr ⟨hm, fun hkk => ?_⟩
      rename_i hany
      exact hany (by exact List.any_eq_true.mpr ⟨(k, v), hm, by simp [hkk]⟩)
    · simp only [List.mem_singleton, Prod.mk.injEq] at hkv
      exact Or.inl hkv

/-- Overwriting pass of the insert: when the key occurs, the rewritten
map answers the inserted value. -/
theorem lookupString_overwrite (key value : String) :
    ∀ m : List (String × String), m.any (fun kv => kv.1 = key) = true →
      lookupString (m.map fun kv => if kv.1 = key then (key, value) else kv) key = some value
  | [], h => by simp at h
  | (a, b) :: rest, h => by
      by_cases hak : a = key
      · rw [List.map_cons, if_pos (show (a, b).1 = key from hak)]
        simp [lookupString]
      · have h2 : rest.any (fun kv => kv.1 = key) = true := by
          simpa [List.any_cons, hak] using h
        rw [List.map_cons, if_neg (show ¬((a, b).1 = key) from hak)]
        simp only [lookupString]
        rw [if_neg hak]
        exact lookupString_overwrite key value rest h2

/-- Appending pass of the insert: when the key is absent, the appended
binding answers the lookup. -/
theorem lookupString_append_new (key value : String) :
    ∀ m : List (String × String), m.any (fun kv => kv.1 = key) = false →
      lookupString (m ++ [(key, value)]) key = some value
  | [], _ => by simp [lookupString]
  | (a, b) :: rest, h => by
      have hak : ¬(a = key) := by
        intro hh
        simp [List.any_cons, hh] at h
      have h2 : rest.any (fun kv => kv.1 = key) = false := by
        simpa [List.any_cons, hak] using h
      rw [List.cons_append]
      simp only [lookupString]
      rw [if_neg hak]
      exact lookupString_append_new key value rest h2

/-- After `m[key] = value`, looking up `key` yields `value`. -/
theorem lookupString_mapInsert (m : List (String × String)) (key value : String) :
    lookupString (mapInsert m key value) key = some value := by
  unfold mapInsert
  split
  · rename_i hany
    exact lookupString_overwrite key value m hany
  · rename_i hany
    exact lookupString_append_new key value m (by simpa only [Bool.not_eq_true] using hany)

/-- Every binding of the pre-injection metadata map comes from a
non-empty-string binding of the record's `metadata` object. -/
theorem mem_metadata_base (record : ResultRecord) (k v : String)
    (h : (k, v) ∈ stringMapFromAny (lookupField record "metadata")) :
    v ≠ "" ∧ ∃ fields, lookupField record "metadata" = some (.obj fields) ∧
      (k, Json.str v) ∈ fields := by
  cases hm : lookupField record "metadata" with
  | none => rw [hm] at h; simp [stringMapFromAny] at h
  | some w =>
    rw [hm] at h
    cases w with
    | obj fields =>
      rcases (mem_stringMapFromAny fields k v).mp h with ⟨hmem, hv⟩
      exact ⟨hv, fields, rfl, hmem⟩
    | null => simp [stringMapFromAny] at h
    | bool b => simp [stringMapFromAny] at h
    | num n => simp [stringMapFromAny] at h
    | str s => simp [stringMapFromAny] at h
    | arr es => simp [stringMapFromAny] at h

/-- C8: every entry of the output metadata map is a non-empty string
that either comes verbatim from the record's `metadata` object or is
the injected `source` entry (itself the record's non-empty `url`);
exactly the non-empty-string bindings of the `metadata` object survive
the filter, every other value type being dropped; and whenever the
record carries a non-empty `url` string the `source` entry equals that
URL, overwriting any upstream-provided `source` binding. -/
theorem metadata_assembly_spec :
    (∀ (record : ResultRecord) (k v : String),
        (k, v) ∈ buildMetadata record →
        v ≠ "" ∧
          ((∃ fields, lookupField record "metadata" = some (.obj fields) ∧
              (k, Json.str v) ∈ fields) ∨
            (k = "source" ∧ lookupField record "url" = some (Json.str v)))) ∧
    (∀ (fields : List (String × Json)) (k v : String),
        (k, v) ∈ stringMapFromAny (some (.obj fields)) ↔
          (k, Json.str v) ∈ fields ∧ v ≠ "") ∧
    (∀ (record : ResultRecord) (url : String),
        lookupField record "url" = some (Json.str url) → url ≠ "" →
        lookupString (buildMetadata record) "source" = some url) := by
  refine ⟨?_, mem_stringMapFromAny, ?_⟩
  · intro record k v h
    unfold buildMetadata at h
    cases hu : lookupField record "url" with
    | none =>
      rw [hu] at h
      rcases mem_metadata_base record k v h with ⟨hv, fields, hm, hmem⟩
      exact ⟨hv, Or.inl ⟨fields, hm, hmem⟩⟩
    | some w =>
      rw [hu] at h
      cases w with
      | str url =>
        dsimp only at h
        by_cases hne : url = ""
        · rw [if_neg (by simp [hne])] at h
          rcases mem_metadata_base record k v h with ⟨hv, fields, hm, hmem⟩
          exact ⟨hv, Or.inl ⟨fields, hm, hmem⟩⟩
        · rw [if_pos hne] at h
          rcases mem_mapInsert _ "source" url k v h with ⟨hk, hv⟩ | ⟨hmem, _⟩
          · subst hk; subst hv
            exact ⟨hne, Or.inr ⟨rfl, rfl⟩⟩
          · rcases mem_metadata_base record k v hmem with ⟨hv, fields, hm, hmem2⟩
            exact ⟨hv, Or.inl ⟨fields, hm, hmem2⟩⟩
      | null =>
        rcases mem_metadata_base record k v h with ⟨hv, fields, hm, hmem⟩
        exact ⟨hv, Or.inl ⟨fields, hm, hmem⟩⟩
      | bool b =>
        rcases mem_metadata_base record k v h with ⟨hv, fields, hm, hmem⟩
        exact ⟨hv, Or.inl ⟨fields, hm, hmem⟩⟩
      | num n =>
        rcases mem_metadata_base record k v h with ⟨hv, fields, hm, hmem⟩
        exact ⟨hv, Or.inl ⟨fields, hm, hmem⟩⟩
      | arr es =>
        rcases mem_metadata_base record k v h with ⟨hv, fields, hm, hmem⟩
        exact ⟨hv, Or.inl ⟨fields, hm, hmem⟩⟩
      | obj fs =>
        rcases mem_metadata_base record k v h with ⟨hv, fields, hm, hmem⟩
        exact ⟨hv, Or.inl ⟨fields, hm, hmem⟩⟩
  · intro record url hu hne
    unfold buildMetadata
    rw [hu]
    dsimp only
    rw [if_pos hne]
    exact lookupString_mapInsert _ "source" url

/-- Witness for C8: the injected `source` overwrites an
upstream-provided `source`, and a non-empty string binding survives
the filter. -/
theorem metadata_assembly_spec_witness :
    lookupString (buildMetadata
        [("metadata", Json.obj [("source", Json.str "upstream"), ("title", Json.str "T")]),
         ("url", Json.str "https://e")]) "source" = some "https://e" ∧
    ("title", "T") ∈ stringMapFromAny
        (some (Json.obj [("source", Json.str "upstream"), ("title", Json.str "T")])) :=
  ⟨metadata_assembly_spec.2.2
      [("metadata", Json.obj [("source", Json.str "upstream"), ("title", Json.str "T")]),
       ("url", Json.str "https://e")] "https://e" rfl (by decide),
   (metadata_assembly_spec.2.1
      [("source", Json.str "upstream"), ("title", Json.str "T")] "title" "T").mpr
     ⟨by simp, by decide⟩⟩

end CrawlProxy
